import Mathlib

/-
Verification of the objectfilter engine (google/objectfilter).

The repository ships `objectfilter/utils.py` and the test suite
`tests/objectfilter_test.py`; the engine module itself
(`objectfilter/objectfilter.py`) is not present under src/, so the engine
is modelled here from the specification (spec.md), with the concrete
behaviour pinned down by the fixtures and assertions of the test suite.

The model is a shallow embedding: host objects become an inductive `Value`
type, the attribute resolver, value expander, filter algebra, scanner,
parser and compiler become total executable Lean functions.
-/

namespace ObjectFilter

/-- Numbers of the host language. Python compares ints and floats
numerically, so both are modelled as a fraction `mant / den` with
`den > 0`; all numeric literals appearing in queries and fixtures are
decimal, hence exactly representable. Comparison and equality use
cross-multiplication and therefore agree with rational comparison
without any normalisation. -/
structure PyNum where
  mant : Int
  den : Nat
  deriving DecidableEq, Repr

/-- Modelled from the spec: a host value (section 3, Data model). A member
yields a scalar (string, number, boolean), a composite (another host
value), a sequence (eager list or lazy single-pass stream), or nothing
(member absent, a callable, or a read that fails). Lazy sequences are
kept distinct from eager ones because the host's string conversion
renders a lazy stream opaquely, which is observable through Regexp. -/
inductive Value where
  | str (s : String)
  | num (n : PyNum)
  | boolV (b : Bool)
  | seq (vs : List Value)
  | lazySeq (vs : List Value)
  | obj (fields : List (String × Value))
  | callable
  | raising
  deriving Repr

/-- Integer-valued host number. -/
def intNum (i : Int) : Value := .num ⟨i, 1⟩

/-- Numeric equality by cross-multiplication. -/
def pyNumBeq (a b : PyNum) : Bool := a.mant * (b.den : Int) == b.mant * (a.den : Int)

/-- Numeric strict order by cross-multiplication. -/
def pyNumLt (a b : PyNum) : Bool := decide (a.mant * (b.den : Int) < b.mant * (a.den : Int))

/-- Numeric non-strict order by cross-multiplication. -/
def pyNumLe (a b : PyNum) : Bool := decide (a.mant * (b.den : Int) ≤ b.mant * (a.den : Int))

mutual
/-- Modelled from the spec: the host's equality, as used by Equals,
Contains and InSet. Strings compare by content, numbers numerically,
sequences element-wise; composite objects, lazy streams and non-data
members compare by identity in the host, which two distinct model values
never share, so they compare unequal here. -/
def Value.beq : Value → Value → Bool
  | .str a, .str b => a == b
  | .num a, .num b => pyNumBeq a b
  | .boolV a, .boolV b => a == b
  | .seq a, .seq b => beqValueList a b
  | _, _ => false

/-- Element-wise equality of eager sequences. -/
def beqValueList : List Value → List Value → Bool
  | [], [] => true
  | x :: xs, y :: ys => Value.beq x y && beqValueList xs ys
  | _, _ => false
end

instance : BEq Value := ⟨Value.beq⟩

/-- Lowercase fold of a string, the default case policy of the resolver. -/
def lowerStr (s : String) : String := String.mk (s.data.map Char.toLower)

/-- Modelled from the spec: the attribute resolver's member lookup under
the default lowercase-fold case policy (section 4.1). Both the queried
name and the candidate member names are lowercased; the first match in
declaration order wins. A member that is invocable (a bare method) or
whose read fails yields nothing. -/
def getMember (v : Value) (n : String) : Option Value :=
  match v with
  | .obj fields =>
    match fields.find? (fun f => lowerStr f.1 == lowerStr n) with
    | some (_, .callable) => none
    | some (_, .raising) => none
    | some (_, m) => some m
    | none => none
  | _ => none

/-- Modelled from the spec: `resolve` at a non-terminal path segment. A
sequence member fans the walk out into its elements in declaration
order; a scalar or composite member continues with a single value; a
missing or non-data member contributes nothing (section 4.2, step 2). -/
def resolveNonLeaf (v : Value) (n : String) : List Value :=
  match getMember v n with
  | none => []
  | some (.seq vs) => vs
  | some (.lazySeq vs) => vs
  | some m => [m]

/-- Modelled from the spec: the terminal step of expansion. Each frontier
value whose member is present contributes the member's raw value as one
group; the group is not flattened further, so a list-valued member is
one group that is itself a list (section 4.2, step 3; pinned by
ObjectFilterTest.testExpand). -/
def atLeaf (v : Value) (n : String) : List Value :=
  match getMember v n with
  | none => []
  | some m => [m]

/-- Modelled from the spec: the value expander. Walks the dotted path,
fanning out through repeated members at non-terminal segments and
yielding one group per terminal frontier value. Missing members at any
point contribute no groups and no exception surfaces (section 4.2). -/
def expand (v : Value) : List String → List Value
  | [] => []
  | n :: rest =>
    match rest with
    | [] => atLeaf v n
    | _ => (resolveNonLeaf v n).flatMap (fun x => expand x rest)

/-- Dotted-path splitting, `"a.b.c"` to `["a", "b", "c"]`. -/
def splitPathAux : List Char → List Char → List String
  | acc, [] => [String.mk acc.reverse]
  | acc, c :: cs =>
    if c == '.' then String.mk acc.reverse :: splitPathAux [] cs
    else splitPathAux (c :: acc) cs

/-- Path strings are split on dots before expansion. -/
def splitPath (s : String) : List String := splitPathAux [] s.data

/-- Substring test on character lists: does the text start with the pattern. -/
def charsStartWith : List Char → List Char → Bool
  | _, [] => true
  | [], _ => false
  | c :: cs, p :: ps => c == p && charsStartWith cs ps

/-- Substring test on character lists: does the pattern occur anywhere. -/
def charsContain : List Char → List Char → Bool
  | [], pat => pat.isEmpty
  | c :: cs, pat => charsStartWith (c :: cs) pat || charsContain cs pat

/-- Substring containment on strings, the host's `pat in s` on strings. -/
def strContains (s pat : String) : Bool := charsContain s.data pat.data

/-- Decimal representation of an integer, the host's string conversion. -/
def intRepr (i : Int) : String := toString i

/-- String conversion of a number. Integral values render as decimal
integers; the rendering of non-integral values is host-defined and only
the integral case is exercised by the spec and tests. -/
def numRepr (n : PyNum) : String :=
  if n.den == 1 then intRepr n.mant else intRepr n.mant ++ "/" ++ toString n.den

mutual
/-- Modelled from the spec: the host's `repr` of a value, as it appears
inside the rendering of a containing list. Strings are quoted, numbers
render decimally, an eager list renders with its elements, while a lazy
stream, a composite and a bound method render opaquely (SmartUnicode in
utils.py falls back to the host's default string conversion). -/
def Value.pyRepr : Value → String
  | .str s => "\x27" ++ s ++ "\x27"
  | .num n => numRepr n
  | .boolV b => if b then "True" else "False"
  | .seq vs => "[" ++ pyReprList vs ++ "]"
  | .lazySeq _ => "<generator object>"
  | .obj _ => "<object>"
  | .callable => "<bound method>"
  | .raising => "<object>"

/-- Comma-separated reprs of list elements. -/
def pyReprList : List Value → String
  | [] => ""
  | [v] => v.pyRepr
  | v :: vs => v.pyRepr ++ ", " ++ pyReprList vs
end

/-- Modelled from the spec: the host's string conversion (SmartUnicode).
A string converts to itself; every other value converts to its repr. -/
def Value.display : Value → String
  | .str s => s
  | v => v.pyRepr

/-- Atomic values are those that are not sequences. -/
def Value.isAtomic : Value → Bool
  | .seq _ => false
  | .lazySeq _ => false
  | _ => true

/-- Lexicographic strict order on character lists, by code point. -/
def charsLt : List Char → List Char → Bool
  | [], [] => false
  | [], _ :: _ => true
  | _ :: _, [] => false
  | c :: cs, d :: ds => decide (c < d) || (c == d && charsLt cs ds)

/-- Lexicographic strict order on strings, the host's string order. -/
def strLt (a b : String) : Bool := charsLt a.data b.data

/-- Strict order on values: numbers numerically, strings
lexicographically; ordering across unlike types is silently false. -/
def valLt : Value → Value → Bool
  | .num a, .num b => pyNumLt a b
  | .str a, .str b => strLt a b
  | _, _ => false

/-- Non-strict order on values, same typing rules as `valLt`. -/
def valLe : Value → Value → Bool
  | .num a, .num b => pyNumLe a b
  | .str a, .str b => strLt a b || a == b
  | _, _ => false

/-- Modelled from the spec: the Contains operation. A string contains a
string literal when it is a substring; a sequence (eager or lazy)
contains the literal when some element equals it; anything else is
false (section 4.3). -/
def containsOp : Value → Value → Bool
  | .str s, .str pat => strContains s pat
  | .seq xs, y => xs.contains y
  | .lazySeq xs, y => xs.contains y
  | _, _ => false

/-- Membership of a value in a literal, the host's `x in y`: membership
under equality when the literal is a sequence, substring containment
when both are strings, false otherwise. -/
def memberOf (x : Value) (y : Value) : Bool :=
  match y with
  | .seq ys => ys.contains x
  | .lazySeq ys => ys.contains x
  | .str s =>
    match x with
    | .str xs => strContains s xs
    | _ => false
  | _ => false

/-- Modelled from the spec: the InSet operation. An atomic value is in
the set when it is a member of the literal; a sequence value is in the
set when every one of its elements is a member (subset test), so an
empty sequence is in every set (section 4.3). -/
def inSetOp (x y : Value) : Bool :=
  match x with
  | .seq xs => xs.all (fun e => memberOf e y)
  | .lazySeq xs => xs.all (fun e => memberOf e y)
  | _ => memberOf x y

/-- Kinds of the generic binary comparison operators. -/
inductive BinOpKind where
  | equals | notEquals | less | lessEqual | greater | greaterEqual
  | containsK | notContainsK | inSetK | notInSetK
  deriving DecidableEq, Repr

/-- Modelled from the spec: the per-operator Operation applied to one
expanded value and the literal (section 4.3). The negated operators
negate value-wise. -/
def operation : BinOpKind → Value → Value → Bool
  | .equals, x, y => x == y
  | .notEquals, x, y => !(x == y)
  | .less, x, y => valLt x y
  | .lessEqual, x, y => valLe x y
  | .greater, x, y => valLt y x
  | .greaterEqual, x, y => valLe y x
  | .containsK, x, y => containsOp x y
  | .notContainsK, x, y => !(containsOp x y)
  | .inSetK, x, y => inSetOp x y
  | .notInSetK, x, y => !(inSetOp x y)

/-- Modelled from the spec: the filter algebra (section 4.3). A binary
operator node holds its kind, dotted path and literal; a Regexp node
holds the compiled pattern, modelled as the host-supplied search
predicate over the stringified value; combinators hold their children
(the flat AND/OR lists of the source are modelled left-nested); the
Context node holds a path and the re-rooted child filter. -/
inductive Filter where
  | binOp (kind : BinOpKind) (path : String) (literal : Value)
  | regexFilter (search : String → Bool) (path : String)
  | andFilter (l r : Filter)
  | orFilter (l r : Filter)
  | notFilter (child : Filter)
  | context (path : String) (child : Filter)

/-- One sub-object per repetition: a group that is a sequence contributes
its elements, an atomic group contributes itself. -/
def flattenGroup : Value → List Value
  | .seq vs => vs
  | .lazySeq vs => vs
  | v => [v]

/-- Modelled from the spec: the individual leaf values reached by a path,
used by the Context operator (section 4.3, expand_leaf_values). -/
def leafValues (o : Value) (path : String) : List Value :=
  (expand o (splitPath path)).flatMap flattenGroup

/-- Modelled from the spec: evaluation of a filter tree against a host
object (sections 4.3 and 8). A binary operator matches when its
Operation accepts some expanded value; Regexp searches the stringified
expanded values; Context re-roots its child at each individual leaf
value of its path. Evaluation is total: it always returns a boolean. -/
def Filter.matches : Filter → Value → Bool
  | .binOp kind path lit, o => (expand o (splitPath path)).any (fun v => operation kind v lit)
  | .regexFilter search path, o => (expand o (splitPath path)).any (fun v => search v.display)
  | .andFilter l r, o => l.matches o && r.matches o
  | .orFilter l r, o => l.matches o || r.matches o
  | .notFilter c, o => !(c.matches o)
  | .context path c, o => (leafValues o path).any (fun sub => c.matches sub)

/-- Construction-time errors of operator constructors (section 7). -/
inductive FilterError where
  | invalidNumberOfOperands
  deriving DecidableEq, Repr

/-- An argument passed to the Context constructor: the context path or a
child filter. -/
inductive CtxArg where
  | pathArg (p : String)
  | filterArg (f : Filter)

/-- Modelled from the spec: the Context constructor. It validates the
operand count before anything is evaluated: any number of arguments
other than exactly two raises InvalidNumberOfOperands (sections 4.3 and
7); the check does not inspect `Filter.matches` at all. -/
def mkContext (arguments : List CtxArg) : Except FilterError (CtxArg × CtxArg) :=
  match arguments with
  | [a, b] => .ok (a, b)
  | _ => .error .invalidNumberOfOperands

/-- The HashObject fixture: stores the hash in `value` and exposes it
again through the `md5` property (objectfilter_test.py). -/
def hashObject (h : String) : Value :=
  .obj [("value", .str h), ("md5", .str h)]

/-- The Dll fixture: a name, an eager backing list of imported function
names, their count, and the `imported_functions` property which is a
generator, hence a lazy sequence (objectfilter_test.py). -/
def mkDll (name : String) (fns : List String) : Value :=
  .obj [("name", .str name),
        ("_imported_functions", .seq (fns.map .str)),
        ("num_imported_functions", intNum fns.length),
        ("exported_functions", .seq []),
        ("num_exported_functions", intNum 0),
        ("imported_functions", .lazySeq (fns.map .str))]

/-- The DummyFile fixture of the test suite, with its class attribute,
instance attributes, properties, lazy generator member and the
non-data `Callable` method (objectfilter_test.py). -/
def dummyFile : Value :=
  .obj [("non_callable_leaf", .str "yoda"),
        ("non_callable", hashObject "123abc"),
        ("non_callable_repeated",
          .seq [.obj [("desmond", .seq [.str "brotha", .str "brotha"])],
                .obj [("desmond", .seq [.str "brotha", .str "sista"])]]),
        ("imported_dll1", mkDll "a.dll" ["FindWindow", "CreateFileA"]),
        ("imported_dll2", mkDll "b.dll" ["RegQueryValueEx"]),
        ("name", .str "yay.exe"),
        ("attributes", .seq [.str "Backup", .str "Archive"]),
        ("hash", .seq [hashObject "123abc", hashObject "456def"]),
        ("size", intNum 10),
        ("deferred_values", .lazySeq [.str "a", .str "b"]),
        ("novalues", .seq []),
        ("imported_dlls",
          .seq [mkDll "a.dll" ["FindWindow", "CreateFileA"],
                mkDll "b.dll" ["RegQueryValueEx"]]),
        ("Callable", .callable),
        ("float", .num ⟨1239823, 10000⟩)]

/-- A DummyObject fixture holding a single named attribute. -/
def dummyObject (key : String) (v : Value) : Value := .obj [(key, v)]

/-- Errors of the scanner and parser; the source raises the single
exception class ParseError for every malformed query (section 7). -/
inductive PError where
  | parseErr
  deriving DecidableEq, Repr

/-- Hexadecimal digit test. -/
def isHexChar (c : Char) : Bool :=
  c.isDigit || (decide ('a' ≤ c) && decide (c ≤ 'f')) || (decide ('A' ≤ c) && decide (c ≤ 'F'))

/-- Value of a hexadecimal digit. -/
def hexVal (c : Char) : Nat :=
  if c.isDigit then c.toNat - 48
  else if decide ('a' ≤ c) then c.toNat - 87
  else c.toNat - 55

/-- Modelled from the spec: escape decoding inside a quoted string
literal (section 4.4). A double backslash decodes to one backslash,
backslash-n to a newline, backslash-x followed by exactly two hex
digits to the byte with that hex value; any other escape is a parse
error, signalled here by `none`. Unescaped characters pass through. -/
def decodeEscapes : List Char → Option (List Char)
  | [] => some []
  | '\\' :: rest =>
    match rest with
    | '\\' :: rs => (decodeEscapes rs).map (fun ds => '\\' :: ds)
    | 'n' :: rs => (decodeEscapes rs).map (fun ds => '\n' :: ds)
    | 'x' :: h1 :: h2 :: rs =>
      if isHexChar h1 && isHexChar h2 then
        (decodeEscapes rs).map (fun ds => Char.ofNat (16 * hexVal h1 + hexVal h2) :: ds)
      else none
    | _ => none
  | c :: rest => (decodeEscapes rest).map (fun ds => c :: ds)

/-- Decoding of a whole raw literal body to a string. -/
def decodeString (s : String) : Option String :=
  (decodeEscapes s.data).map (fun ds => String.mk ds)

/-- Tokens of the query language (section 3, Token). -/
inductive Token where
  | ident (s : String)
  | numTok (n : PyNum)
  | strTok (s : String)
  | lparen
  | rparen
  | lbracket
  | rbracket
  | comma
  | atSign
  | sym (s : String)
  deriving DecidableEq, Repr

/-- First character of an identifier. -/
def isIdentStart (c : Char) : Bool := c.isAlpha || c == '_'

/-- Later characters of an identifier; dotted names are one token. -/
def isIdentChar (c : Char) : Bool := c.isAlphanum || c == '_' || c == '.'

/-- Decimal digits to a natural number. -/
def digitsToNat : List Char → Nat → Nat
  | [], acc => acc
  | c :: cs, acc => digitsToNat cs (acc * 10 + (c.toNat - 48))

/-- Hexadecimal digits to a natural number. -/
def hexDigitsToNat : List Char → Nat → Nat
  | [], acc => acc
  | c :: cs, acc => hexDigitsToNat cs (acc * 16 + hexVal c)

/-- Powers of ten for fractional scaling. -/
def pow10 : Nat → Nat
  | 0 => 1
  | k + 1 => 10 * pow10 k

/-- Modelled from the spec: numeric literal lexing (section 4.4). A
decimal or 0x-prefixed hex integer, or a float written digits-dot-digits;
a digit prefix followed by a letter (as in 1a or 1e3) is a lex error, so
scientific notation is refused. -/
def lexNumber (cs : List Char) : Option (PyNum × List Char) :=
  match cs with
  | '0' :: 'x' :: rest =>
    let hs := rest.takeWhile isHexChar
    let rest2 := rest.dropWhile isHexChar
    if hs.isEmpty then none
    else
      match rest2 with
      | c :: _ => if c.isAlpha || c == '_' then none else some (⟨hexDigitsToNat hs 0, 1⟩, rest2)
      | [] => some (⟨hexDigitsToNat hs 0, 1⟩, rest2)
  | _ =>
    let ds := cs.takeWhile Char.isDigit
    let rest := cs.dropWhile Char.isDigit
    match rest with
    | '.' :: rest1 =>
      let fs := rest1.takeWhile Char.isDigit
      let rest2 := rest1.dropWhile Char.isDigit
      if fs.isEmpty then none
      else
        match rest2 with
        | c :: _ =>
          if c.isAlpha || c == '_' then none
          else some (⟨(digitsToNat ds 0 * pow10 fs.length + digitsToNat fs 0 : Nat), pow10 fs.length⟩, rest2)
        | [] => some (⟨(digitsToNat ds 0 * pow10 fs.length + digitsToNat fs 0 : Nat), pow10 fs.length⟩, rest2)
    | c :: _ =>
      if c.isAlpha || c == '_' then none else some (⟨digitsToNat ds 0, 1⟩, rest)
    | [] => some (⟨digitsToNat ds 0, 1⟩, rest)

/-- Modelled from the spec: the scanner (section 4.4). Whitespace
separates tokens; the context sigil, parentheses, brackets and commas
are punctuation; identifiers, numbers and quoted strings with escape
decoding become their tokens; the comparison symbols are recognised;
anything else is a parse error. The fuel argument strictly exceeds the
remaining characters, and every step consumes at least one character,
so the fuel never runs out on a real input. -/
def scanAux : Nat → List Char → Except PError (List Token)
  | 0, _ => .error .parseErr
  | _, [] => .ok []
  | fuel + 1, c :: cs =>
    if c == ' ' || c == '\n' || c == '\t' || c == '\r' then scanAux fuel cs
    else if c == '@' then (scanAux fuel cs).map (fun ts => .atSign :: ts)
    else if c == '(' then (scanAux fuel cs).map (fun ts => .lparen :: ts)
    else if c == ')' then (scanAux fuel cs).map (fun ts => .rparen :: ts)
    else if c == '[' then (scanAux fuel cs).map (fun ts => .lbracket :: ts)
    else if c == ']' then (scanAux fuel cs).map (fun ts => .rbracket :: ts)
    else if c == ',' then (scanAux fuel cs).map (fun ts => .comma :: ts)
    else if c == '=' then
      match cs with
      | '=' :: rest => (scanAux fuel rest).map (fun ts => .sym "==" :: ts)
      | _ => .error .parseErr
    else if c == '!' then
      match cs with
      | '=' :: rest => (scanAux fuel rest).map (fun ts => .sym "!=" :: ts)
      | _ => .error .parseErr
    else if c == '<' then
      match cs with
      | '=' :: rest => (scanAux fuel rest).map (fun ts => .sym "<=" :: ts)
      | _ => (scanAux fuel cs).map (fun ts => .sym "<" :: ts)
    else if c == '>' then
      match cs with
      | '=' :: rest => (scanAux fuel rest).map (fun ts => .sym ">=" :: ts)
      | _ => (scanAux fuel cs).map (fun ts => .sym ">" :: ts)
    else if c.isDigit then
      match lexNumber (c :: cs) with
      | none => .error .parseErr
      | some (n, rest) => (scanAux fuel rest).map (fun ts => .numTok n :: ts)
    else if c == '\x27' || c == '"' then
      let raw := cs.takeWhile (fun d => d != c)
      match cs.dropWhile (fun d => d != c) with
      | [] => .error .parseErr
      | _ :: rest1 =>
        match decodeEscapes raw with
        | none => .error .parseErr
        | some dec => (scanAux fuel rest1).map (fun ts => .strTok (String.mk dec) :: ts)
    else if isIdentStart c then
      let ds := cs.takeWhile isIdentChar
      let rest := cs.dropWhile isIdentChar
      (scanAux fuel rest).map (fun ts => .ident (String.mk (c :: ds)) :: ts)
    else .error .parseErr

/-- Scanning of a whole query string. -/
def scanChars (s : String) : Except PError (List Token) :=
  scanAux (s.data.length + 1) s.data

/-- Keyword comparison operators, recognised case-insensitively. -/
def opKeywords : List String :=
  ["is", "isnot", "contains", "notcontains", "inset", "notinset", "regexp"]

/-- Recognition of the operator position: a comparison symbol or a
keyword operator, yielding the lowercase operator name. -/
def getOpToken : List Token → Option (String × List Token)
  | .sym s :: rest => some (s, rest)
  | .ident w :: rest =>
    if opKeywords.contains (lowerStr w) then some (lowerStr w, rest) else none
  | _ => none

/-- Parse-tree shells: binary expressions keep the operator as a keyword
string until compilation; AND/OR chains are kept left-nested, matching
the left-to-right, no-precedence chaining of the source (section 4.5). -/
inductive PTree where
  | expr (attr : String) (op : String) (args : List Value)
  | ctx (attr : String) (child : PTree)
  | andOp (l r : PTree)
  | orOp (l r : PTree)
  deriving Repr

mutual
/-- Modelled from the spec: a full query, one expression followed by any
number of AND/OR continuations (sections 4.5 and 6). -/
def parseQuery : Nat → List Token → Except PError (PTree × List Token)
  | 0, _ => .error .parseErr
  | fuel + 1, ts =>
    match parseExpr fuel ts with
    | .error e => .error e
    | .ok (e, ts1) => parseConj fuel e ts1

/-- AND/OR chaining: each connective must be followed by a complete
expression; the chain folds left-to-right without precedence. -/
def parseConj : Nat → PTree → List Token → Except PError (PTree × List Token)
  | 0, _, _ => .error .parseErr
  | fuel + 1, acc, ts =>
    match ts with
    | .ident w :: ts1 =>
      if lowerStr w == "and" then
        match parseExpr fuel ts1 with
        | .error e => .error e
        | .ok (e, ts2) => parseConj fuel (.andOp acc e) ts2
      else if lowerStr w == "or" then
        match parseExpr fuel ts1 with
        | .error e => .error e
        | .ok (e, ts2) => parseConj fuel (.orOp acc e) ts2
      else .ok (acc, ts)
    | _ => .ok (acc, ts)

/-- Modelled from the spec: one expression. Parentheses are legal only
at expression boundaries; the context sigil must be followed by an
identifier and a parenthesised body; otherwise an identifier, an
operator and one argument (sections 4.5 and 6). -/
def parseExpr : Nat → List Token → Except PError (PTree × List Token)
  | 0, _ => .error .parseErr
  | fuel + 1, ts =>
    match ts with
    | .lparen :: ts1 =>
      match parseQuery fuel ts1 with
      | .error e => .error e
      | .ok (q, ts2) =>
        match ts2 with
        | .rparen :: ts3 => .ok (q, ts3)
        | _ => .error .parseErr
    | .atSign :: .ident n :: .lparen :: ts1 =>
      match parseQuery fuel ts1 with
      | .error e => .error e
      | .ok (q, ts2) =>
        match ts2 with
        | .rparen :: ts3 => .ok (.ctx n q, ts3)
        | _ => .error .parseErr
    | .atSign :: _ => .error .parseErr
    | .ident a :: ts1 =>
      match getOpToken ts1 with
      | some (op, ts2) =>
        match parseArgument fuel ts2 with
        | .error e => .error e
        | .ok (arg, ts3) => .ok (.expr a op [arg], ts3)
      | none => .error .parseErr
    | _ => .error .parseErr

/-- Modelled from the spec: one argument, a number, a quoted string or a
list literal; an unquoted identifier is a parse error (section 4.5). -/
def parseArgument : Nat → List Token → Except PError (Value × List Token)
  | 0, _ => .error .parseErr
  | fuel + 1, ts =>
    match ts with
    | .numTok n :: ts1 => .ok (.num n, ts1)
    | .strTok s :: ts1 => .ok (.str s, ts1)
    | .lbracket :: ts1 => parseListLit fuel [] ts1
    | _ => .error .parseErr

/-- Modelled from the spec: a list literal. Elements are numbers and
strings; repeated and trailing commas are treated as absent elements;
a nested list or an unterminated list is a parse error (section 4.5). -/
def parseListLit : Nat → List Value → List Token → Except PError (Value × List Token)
  | 0, _, _ => .error .parseErr
  | fuel + 1, acc, ts =>
    match ts with
    | .rbracket :: ts1 => .ok (.seq acc.reverse, ts1)
    | .comma :: ts1 => parseListLit fuel acc ts1
    | .numTok n :: ts1 => parseListLit fuel (.num n :: acc) ts1
    | .strTok s :: ts1 => parseListLit fuel (.str s :: acc) ts1
    | _ => .error .parseErr
end

/-- Parsing of a token stream: one query, then end of input; leftover
tokens, including unbalanced closers, are a parse error. The fuel bound
is generous: every parser call either consumes a token or passes to a
callee that does. -/
def parseTokens (ts : List Token) : Except PError PTree :=
  match parseQuery (4 * ts.length + 4) ts with
  | .error e => .error e
  | .ok (t, []) => .ok t
  | .ok (_, _ :: _) => .error .parseErr

/-- Modelled from the spec: Parse of a query string, scanner then parser
(section 6, engine API). -/
def parse (q : String) : Except PError PTree :=
  match scanChars q with
  | .error e => .error e
  | .ok ts => parseTokens ts

/-- Compile-time errors (sections 4.6 and 7). -/
inductive CompileError where
  | unknownOperator
  | invalidOperandCount
  | badRegexLiteral
  deriving DecidableEq, Repr

/-- Modelled from the spec: the filter-implementation registry keyed by
lowercase operator keyword (section 4.6). The regex engine of the host
is injected as `re`, taking the pattern and returning the compiled
search predicate; numeric regexp literals are stringified first. -/
def lookupOperator (re : String → String → Bool) (attr : String) (kw : String)
    (args : List Value) : Except CompileError Filter :=
  match args with
  | [lit] =>
    match lowerStr kw with
    | "is" => .ok (.binOp .equals attr lit)
    | "==" => .ok (.binOp .equals attr lit)
    | "isnot" => .ok (.binOp .notEquals attr lit)
    | "!=" => .ok (.binOp .notEquals attr lit)
    | "<" => .ok (.binOp .less attr lit)
    | "<=" => .ok (.binOp .lessEqual attr lit)
    | ">" => .ok (.binOp .greater attr lit)
    | ">=" => .ok (.binOp .greaterEqual attr lit)
    | "contains" => .ok (.binOp .containsK attr lit)
    | "notcontains" => .ok (.binOp .notContainsK attr lit)
    | "inset" => .ok (.binOp .inSetK attr lit)
    | "notinset" => .ok (.binOp .notInSetK attr lit)
    | "regexp" =>
      match lit with
      | .str pat => .ok (.regexFilter (re pat) attr)
      | .num n => .ok (.regexFilter (re (numRepr n)) attr)
      | _ => .error .badRegexLiteral
    | _ => .error .unknownOperator
  | _ => .error .invalidOperandCount

/-- Modelled from the spec: the compiler walks the parse tree resolving
operator keywords through the registry and linking children
(section 4.6). -/
def compileTree (re : String → String → Bool) : PTree → Except CompileError Filter
  | .expr a op args => lookupOperator re a op args
  | .ctx a child =>
    match compileTree re child with
    | .error e => .error e
    | .ok f => .ok (.context a f)
  | .andOp l r =>
    match compileTree re l, compileTree re r with
    | .ok fl, .ok fr => .ok (.andFilter fl fr)
    | .error e, _ => .error e
    | _, .error e => .error e
  | .orOp l r =>
    match compileTree re l, compileTree re r with
    | .ok fl, .ok fr => .ok (.orFilter fl fr)
    | .error e, _ => .error e
    | _, .error e => .error e

/-- A literal-substring regex engine: enough to model the
metacharacter-free patterns the claims exercise (re.search finds the
pattern anywhere in the text). -/
def literalSearch (pat s : String) : Bool := strContains s pat

/-- End-to-end pipeline: parse, compile, evaluate. `none` reports a
parse or compile failure; `some b` is the boolean verdict. -/
def evalQuery (re : String → String → Bool) (q : String) (o : Value) : Option Bool :=
  match parse q with
  | .error _ => none
  | .ok t =>
    match compileTree re t with
    | .error _ => none
    | .ok f => some (f.matches o)

/-- Member lookup depends on the queried name only through its lowercase
fold. -/
theorem getMember_lower_congr (v : Value) {n m : String} (h : lowerStr n = lowerStr m) :
    getMember v n = getMember v m := by
  cases v <;> simp [getMember, h]

/-- Non-leaf resolution depends on the segment only through its lowercase
fold. -/
theorem resolveNonLeaf_lower_congr (v : Value) {n m : String} (h : lowerStr n = lowerStr m) :
    resolveNonLeaf v n = resolveNonLeaf v m := by
  simp [resolveNonLeaf, getMember_lower_congr v h]

/-- Leaf resolution depends on the segment only through its lowercase
fold. -/
theorem atLeaf_lower_congr (v : Value) {n m : String} (h : lowerStr n = lowerStr m) :
    atLeaf v n = atLeaf v m := by
  simp [atLeaf, getMember_lower_congr v h]

/-- Expansion depends on the path only through the lowercase folds of its
segments. -/
theorem expand_lower_congr :
    ∀ (p q : List String), p.map lowerStr = q.map lowerStr → ∀ v, expand v p = expand v q := by
  intro p
  induction p with
  | nil =>
    intro q h v
    cases q with
    | nil => rfl
    | cons _ _ => simp at h
  | cons n rest ih =>
    intro q h v
    cases q with
    | nil => simp at h
    | cons m qrest =>
      simp only [List.map_cons, List.cons.injEq] at h
      obtain ⟨h1, h2⟩ := h
      cases rest with
      | nil =>
        cases qrest with
        | nil => exact atLeaf_lower_congr v h1
        | cons _ _ => simp at h2
      | cons a arest =>
        cases qrest with
        | nil => simp at h2
        | cons b brest =>
          show (resolveNonLeaf v n).flatMap (fun x => expand x (a :: arest)) =
            (resolveNonLeaf v m).flatMap (fun x => expand x (b :: brest))
          rw [resolveNonLeaf_lower_congr v h1]
          congr 1
          funext x
          exact ih (b :: brest) h2 x

/-- C1: expansion is modelled as a total function, so it never raises: a
missing intermediate or leaf member, a member that is not data-bearing
(the fixture's Callable method), and a member whose read fails all
contribute no groups, making the expansion empty; and whenever the
expansion of a path over an object is empty, every binary operator
filter over that path — the comparison kinds and Regexp alike — returns
false on that object, so Filter.matches always returns a boolean. -/
theorem c1_empty_expansion_safe :
    (∀ (o : Value) (p : String) (k : BinOpKind) (lit : Value),
        expand o (splitPath p) = [] → (Filter.binOp k p lit).matches o = false)
    ∧ (∀ (o : Value) (p : String) (search : String → Bool),
        expand o (splitPath p) = [] → (Filter.regexFilter search p).matches o = false)
    ∧ expand dummyFile (splitPath "nonexistant") = []
    ∧ expand dummyFile (splitPath "hash.mink.boo") = []
    ∧ expand dummyFile (splitPath "hash.mink") = []
    ∧ expand dummyFile (splitPath "Callable") = []
    ∧ expand dummyFile (splitPath "Callable.a") = [] := by
  refine ⟨?_, ?_, rfl, rfl, rfl, rfl, rfl⟩
  · intro o p k lit h
    simp [Filter.matches, h]
  · intro o p search h
    simp [Filter.matches, h]

/-- C1 witness: the Callable member expands to nothing, and both an
Equals filter and a Regexp filter over that path return false. -/
theorem c1_empty_expansion_safe_witness :
    (Filter.binOp .equals "Callable" (.str "x")).matches dummyFile = false
    ∧ (Filter.regexFilter (fun s => strContains s "x") "Callable").matches dummyFile = false :=
  ⟨c1_empty_expansion_safe.1 dummyFile "Callable" .equals (.str "x") rfl,
   c1_empty_expansion_safe.2.1 dummyFile "Callable" (fun s => strContains s "x") rfl⟩

/-- C2: Context(path, child).matches(root) holds exactly when the child
filter matches some individual sub-object obtained by expanding the path
from the root and flattening all groups, the child's own paths being
resolved against that sub-object; and on the DummyFile fixture the plain
conjunction of the two path-qualified predicates (num_imported_functions
equals 2, imported_functions contains RegQueryValueEx, both under
imported_dlls) matches, while the Context of their re-rooted conjunction
does not, because no single DLL satisfies both. -/
theorem c2_context_rebinds :
    (∀ (root : Value) (p : String) (child : Filter),
        (Filter.context p child).matches root = true ↔
          ∃ sub ∈ leafValues root p, child.matches sub = true)
    ∧ (Filter.andFilter
        (.binOp .equals "imported_dlls.num_imported_functions" (intNum 2))
        (.binOp .containsK "imported_dlls.imported_functions"
          (.str "RegQueryValueEx"))).matches dummyFile = true
    ∧ (Filter.context "imported_dlls"
        (.andFilter (.binOp .equals "num_imported_functions" (intNum 2))
          (.binOp .containsK "imported_functions"
            (.str "RegQueryValueEx")))).matches dummyFile = false := by
  refine ⟨?_, rfl, rfl⟩
  intro root p child
  simp [Filter.matches, List.any_eq_true]

/-- C2 witness: re-rooted evaluation applied concretely, the first DLL of
the fixture satisfies a name predicate under the imported_dlls context. -/
theorem c2_context_rebinds_witness :
    (Filter.context "imported_dlls" (.binOp .equals "name" (.str "a.dll"))).matches
      dummyFile = true :=
  (c2_context_rebinds.1 dummyFile "imported_dlls"
      (.binOp .equals "name" (.str "a.dll"))).mpr
    ⟨mkDll "a.dll" ["FindWindow", "CreateFileA"], List.Mem.head _, rfl⟩

/-- C3: with a list literal, an atomic expanded value is in the set
exactly when it is a member of the literal, and a sequence expanded
value is in the set exactly when every one of its elements is a member
(subset test), so the empty sequence is in every set; hence for an
object whose attribute is the empty list, the queries `list inset []`
and `list inset [2]` are true and `list notinset [2]` is false through
the full parse, compile, match pipeline. -/
theorem c3_inset_subset :
    (∀ (x : Value) (ys : List Value), x.isAtomic = true →
        operation .inSetK x (.seq ys) = ys.contains x)
    ∧ (∀ (xs ys : List Value),
        operation .inSetK (.seq xs) (.seq ys) = xs.all (fun e => ys.contains e))
    ∧ (∀ (ys : List Value), operation .inSetK (.seq []) (.seq ys) = true)
    ∧ evalQuery literalSearch "list inset []" (dummyObject "list" (.seq [])) = some true
    ∧ evalQuery literalSearch "list inset [2]" (dummyObject "list" (.seq [])) = some true
    ∧ evalQuery literalSearch "list notinset [2]" (dummyObject "list" (.seq []))
        = some false := by
  refine ⟨?_, fun xs ys => rfl, fun ys => rfl, rfl, rfl, rfl⟩
  intro x ys hx
  cases x <;> first | rfl | simp [Value.isAtomic] at hx

/-- C3 witness: the atomic membership characterisation applied to the
fixture's name value and a concrete literal list. -/
theorem c3_inset_subset_witness :
    operation .inSetK (.str "yay.exe") (.seq [.str "yay.exe", .str "autoexec.bat"])
      = [Value.str "yay.exe", Value.str "autoexec.bat"].contains (.str "yay.exe") :=
  c3_inset_subset.1 (.str "yay.exe") [.str "yay.exe", .str "autoexec.bat"] rfl

/-- C4: a present member always contributes exactly one group per
terminal frontier value, so a non-repeated scalar leaf yields one group
with one value (size yields the group 10); a repeated non-terminal
member fans out into one continuation per repetition in declaration
order (hash.md5 yields the two md5 strings in order); and a repeated
leaf whose value is itself a list yields each whole list as one group
(non_callable_repeated.desmond yields the two brotha lists). -/
theorem c4_expansion_group_structure :
    (∀ (o : Value) (n : String) (m : Value), getMember o n = some m → expand o [n] = [m])
    ∧ (∀ (o : Value) (n : String) (vs : List Value) (q : List String), q ≠ [] →
        getMember o n = some (.seq vs) →
        expand o (n :: q) = vs.flatMap (fun x => expand x q))
    ∧ expand dummyFile (splitPath "size") = [intNum 10]
    ∧ expand dummyFile (splitPath "hash.md5") = [.str "123abc", .str "456def"]
    ∧ expand dummyFile (splitPath "non_callable_repeated.desmond") =
        [.seq [.str "brotha", .str "brotha"], .seq [.str "brotha", .str "sista"]] := by
  refine ⟨?_, ?_, rfl, rfl, rfl⟩
  · intro o n m h
    simp [expand, atLeaf, h]
  · intro o n vs q hq h
    cases q with
    | nil => exact absurd rfl hq
    | cons s rest => simp [expand, resolveNonLeaf, h]

/-- C4 witness: the one-group-per-frontier-value rule applied to the
scalar size member of the fixture. -/
theorem c4_expansion_group_structure_witness :
    expand dummyFile ["size"] = [intNum 10] :=
  c4_expansion_group_structure.1 dummyFile "size" (intNum 10) rfl

/-- C5 counterexample: the claim that a sequence expanded value never
matches a Regexp filter is false on the code: the attributes member of
the DummyFile fixture expands to a single group that is a sequence, not
an atomic value, and yet a Regexp whose pattern is Archive matches,
exactly as the test table asserts with (True, [attributes, Archive]). -/
theorem c5_regexp_counterexample :
    (Filter.regexFilter (fun s => strContains s "Archive") "attributes").matches
      dummyFile = true
    ∧ expand dummyFile (splitPath "attributes")
        = [.seq [.str "Backup", .str "Archive"]]
    ∧ Value.isAtomic (.seq [.str "Backup", .str "Archive"]) = false :=
  ⟨rfl, rfl, rfl⟩

/-- C5 amended: a Regexp filter stringifies every expanded value with the
host's string conversion and matches exactly when the search succeeds on
that text. Strings match on their content and numbers on their decimal
form, so a Regexp with pattern 0 over size is true; a lazy sequence and
a composite render opaquely, so a Regexp over
imported_dlls.imported_functions is false even when an element of the
sequence matches; but an eager list renders with its elements, so such a
sequence value can match. -/
theorem c5_regexp_stringified :
    (∀ (search : String → Bool) (p : String) (o : Value),
        (Filter.regexFilter search p).matches o = true ↔
          ∃ v ∈ expand o (splitPath p), search v.display = true)
    ∧ (∀ s : String, Value.display (.str s) = s)
    ∧ Value.display (intNum 10) = "10"
    ∧ Value.display (.lazySeq [.str "FindWindow", .str "CreateFileA"])
        = "<generator object>"
    ∧ (Filter.regexFilter (fun s => strContains s "FindWindow")
        "imported_dlls.imported_functions").matches dummyFile = false
    ∧ (Filter.regexFilter (fun s => strContains s "0") "size").matches dummyFile = true := by
  refine ⟨?_, fun s => rfl, rfl, rfl, rfl, rfl⟩
  intro search p o
  simp [Filter.matches, List.any_eq_true]

/-- C5 witness: the stringified characterisation applied concretely to
the name member of the fixture. -/
theorem c5_regexp_stringified_witness :
    (Filter.regexFilter (fun s => strContains s "yay") "name").matches dummyFile = true :=
  (c5_regexp_stringified.1 (fun s => strContains s "yay") "name" dummyFile).mpr
    ⟨.str "yay.exe", List.Mem.head _, rfl⟩

/-- C6: under the default lowercase-fold case policy, expansion is
invariant under the case of path segments, because both the queried
name and the candidate member names are lowercased before comparison;
in particular expansion of size and of Size agree on every host
object. -/
theorem c6_case_insensitive_expansion :
    (∀ (o : Value) (p q : List String), p.map lowerStr = q.map lowerStr →
        expand o p = expand o q)
    ∧ (∀ o : Value, expand o (splitPath "size") = expand o (splitPath "Size")) := by
  constructor
  · intro o p q h
    exact expand_lower_congr p q h o
  · intro o
    exact expand_lower_congr (splitPath "size") (splitPath "Size") (by decide) o

/-- C6 witness: case-invariance applied to the DummyFile fixture. -/
theorem c6_case_insensitive_expansion_witness :
    expand dummyFile (splitPath "size") = expand dummyFile (splitPath "Size") :=
  c6_case_insensitive_expansion.1 dummyFile (splitPath "size") (splitPath "Size") (by decide)

/-- C7: escape decoding inside quoted string literals: a double
backslash decodes to one backslash, backslash-n to a newline, and
backslash-x followed by two hex digits to the byte with that value, so
the hex literals decode to AAA and A4 and the escaped-backslash form
leaves the four characters backslash-x-4-1; while backslash-x not
followed by two hex digits, and any other escape, make the whole query
fail with ParseError when parsed. -/
theorem c7_escape_decoding :
    decodeString "\\x41\\x41\\x41" = some "AAA"
    ∧ decodeString "\\x414" = some "A4"
    ∧ decodeString "\\\\x41" = some "\\x41"
    ∧ decodeString "\\\\" = some "\\"
    ∧ decodeString "\\n" = some "\n"
    ∧ decodeString "\\xJZ" = none
    ∧ decodeString "\\z" = none
    ∧ parse "a is '\\x41\\x41\\x41'" = .ok (.expr "a" "is" [.str "AAA"])
    ∧ parse "a is '\\x414'" = .ok (.expr "a" "is" [.str "A4"])
    ∧ parse "a is '\\\\x41'" = .ok (.expr "a" "is" [.str "\\x41"])
    ∧ parse "a is '\\xJZ'" = .error .parseErr
    ∧ parse "a is '\\z'" = .error .parseErr :=
  ⟨rfl, rfl, rfl, rfl, rfl, rfl, rfl, rfl, rfl, rfl, rfl, rfl⟩

/-- C8: Parse rejects each malformed query of the claim with ParseError —
the empty query, incomplete expressions, bad numeric literals, an
unquoted identifier argument, unbalanced or misplaced parentheses, a
context sigil without a parenthesised body, and a nested list — while
the two-expression conjunction parses, and the empty list and the
comma-only list both parse as an empty list literal. -/
theorem c8_parse_errors :
    parse "" = .error .parseErr
    ∧ parse "attribute" = .error .parseErr
    ∧ parse "attribute is" = .error .parseErr
    ∧ parse "attribute is 3 AND" = .error .parseErr
    ∧ parse "attribute == 1a" = .error .parseErr
    ∧ parse "attribute == 1e3" = .error .parseErr
    ∧ parse "something == red" = .error .parseErr
    ∧ parse "(a is 3" = .error .parseErr
    ∧ parse "()a is 3" = .error .parseErr
    ∧ parse "a is (3)" = .error .parseErr
    ∧ parse "@attributes" = .error .parseErr
    ∧ parse "@attributes name is 'adrien'" = .error .parseErr
    ∧ parse "a is ['cannot', ['nest', 'lists']]" = .error .parseErr
    ∧ parse "a is 3 AND b is 4"
        = .ok (.andOp (.expr "a" "is" [intNum 3]) (.expr "b" "is" [intNum 4]))
    ∧ parse "a is []" = .ok (.expr "a" "is" [.seq []])
    ∧ parse "a is [,,]" = .ok (.expr "a" "is" [.seq []]) :=
  ⟨rfl, rfl, rfl, rfl, rfl, rfl, rfl, rfl, rfl, rfl, rfl, rfl, rfl, rfl, rfl, rfl⟩

/-- C9: the Context constructor raises InvalidNumberOfOperands exactly
when it receives any number of arguments other than two, in particular
for one argument and for a path plus two child filters; the check is
performed by the constructor itself, which never consults
Filter.matches, so it happens before matches is ever called. -/
theorem c9_context_arity :
    (∀ args : List CtxArg,
        mkContext args = .error .invalidNumberOfOperands ↔ args.length ≠ 2)
    ∧ mkContext [.pathArg "context"] = .error .invalidNumberOfOperands
    ∧ mkContext [.pathArg "context",
        .filterArg (.binOp .equals "path" (.str "value")),
        .filterArg (.binOp .equals "another_path" (.str "value"))]
        = .error .invalidNumberOfOperands
    ∧ (∀ (p : String) (f : Filter),
        mkContext [.pathArg p, .filterArg f] = .ok (.pathArg p, .filterArg f)) := by
  refine ⟨?_, rfl, rfl, fun p f => rfl⟩
  intro args
  match args with
  | [] => simp [mkContext]
  | [_] => simp [mkContext]
  | [_, _] => simp [mkContext]
  | _ :: _ :: _ :: rest => simp [mkContext]

/-- C9 witness: the arity characterisation applied to the empty argument
list. -/
theorem c9_context_arity_witness :
    mkContext [] = .error .invalidNumberOfOperands :=
  (c9_context_arity.1 []).mpr (by decide)

/-- C10: InSet and NotInSet also accept an atomic string literal rather
than a list: on the fixture whose name expands to yay.exe, InSet with
literal yay.exe matches, InSet with literal NOPE does not, and NotInSet
with literal NOPE matches; evaluation is total, so no error arises from
the non-list literal. -/
theorem c10_inset_atomic_string_literal :
    (Filter.binOp .inSetK "name" (.str "yay.exe")).matches dummyFile = true
    ∧ (Filter.binOp .inSetK "name" (.str "NOPE")).matches dummyFile = false
    ∧ (Filter.binOp .notInSetK "name" (.str "NOPE")).matches dummyFile = true :=
  ⟨rfl, rfl, rfl⟩

end ObjectFilter
